import Mathlib

/-!
Shallow embedding of `app.py` (Klarity Architect Template Factory).

The Python program is a single-file Streamlit app.  Its computational core is:

* `create_meta_prompt` (app.py lines 19-77): pure string templating;
* `format_comment_string` (app.py lines 80-104): `json.loads` + string
  transformations producing a five-line comment block, returning `None`
  (after reporting an error) on a JSON decode failure;
* `create_docx` (app.py lines 107-137): one heading per processed section,
  with an anchored comment when the `comment_string` of the section is truthy;
* the "Generate Template" button handler (app.py lines 221-291): input
  validation, the sequential per-section generation loop, and the download
  file name derivation.

Machine-level / library-level aspects are embedded as follows: Python strings
become `String` (lists of `Char`); `json.loads` is modelled by an executable
JSON parser `json_loads` over a value type `JValue` (JSON numbers are kept as
exact integers when they have no fraction/exponent part, and as their source
lexeme otherwise, since floating point is outside the embedding; string
escapes cover the standard JSON escapes including `\uXXXX`, with surrogate
pairs combined and lone surrogates rejected because `Char` holds only scalar
values); a Python exception escaping `format_comment_string` is modelled by
`Except.error`; Streamlit UI side effects (st.error / st.warning messages)
are modelled by the returned values that accompany them.
-/

/-- ASCII whitespace stripped by Python `str.strip()` (the embedding restricts
the Unicode whitespace classes of Python to their ASCII members). -/
def pyIsSpace (c : Char) : Bool :=
  c = ' ' || c = '\t' || c = '\n' || c = '\r' || c = '\x0b' || c = '\x0c'

/-- Python `str.strip()` on the character list: drop whitespace from both ends. -/
def pyStripL (cs : List Char) : List Char :=
  ((cs.dropWhile pyIsSpace).reverse.dropWhile pyIsSpace).reverse

/-- Python `str.strip()`. -/
def pyStrip (s : String) : String :=
  ⟨pyStripL s.data⟩

/-- Core of Python `str.replace(pat, repl)`: scan left to right, replacing
non-overlapping occurrences of `pat` (assumed nonempty) by `repl`.  The `Nat`
argument is structural-recursion fuel; every call site supplies at least the
length of the scanned list, which makes the fuel case unreachable. -/
def pyReplaceAux (pat repl : List Char) : Nat → List Char → List Char
  | 0, l => l
  | _ + 1, [] => []
  | fuel + 1, c :: cs =>
    if pat.isPrefixOf (c :: cs) then
      repl ++ pyReplaceAux pat repl fuel (cs.drop (pat.length - 1))
    else
      c :: pyReplaceAux pat repl fuel cs

/-- Python `s.replace(pat, repl)` (for the nonempty patterns used in `app.py`;
an empty pattern is mapped to the identity). -/
def pyReplace (s pat repl : String) : String :=
  if pat.data.isEmpty then s else ⟨pyReplaceAux pat.data repl.data s.data.length s.data⟩

/-- Split a character list on a separator character; always returns at least
one (possibly empty) chunk, exactly like Python `str.split(sep)`. -/
def splitOnC (sep : Char) : List Char → List (List Char)
  | [] => [[]]
  | c :: cs =>
    if c = sep then
      [] :: splitOnC sep cs
    else
      match splitOnC sep cs with
      | [] => [[c]]
      | h :: t => (c :: h) :: t

/-- The lines of a string, splitting on the LF character. -/
def linesOf (s : String) : List String :=
  (splitOnC '\n' s.data).map String.mk

/-- Number of LF characters in a string. -/
def countNL (s : String) : Nat :=
  s.data.count '\n'

/-- Whether `pat` occurs as a contiguous substring of the character list. -/
def isSubOf (pat : List Char) : List Char → Bool
  | [] => pat.isEmpty
  | c :: cs => pat.isPrefixOf (c :: cs) || isSubOf pat cs

/-- Two adjacent occurrences of `ch` somewhere in the list (i.e. the
two-character run `ch ch` occurs as a substring). -/
def doubled (ch : Char) : List Char → Bool
  | c₁ :: c₂ :: rest => ((c₁ = ch) && (c₂ = ch)) || doubled ch (c₂ :: rest)
  | _ => false

/-- Three adjacent occurrences of `ch` somewhere in the list. -/
def tripled (ch : Char) : List Char → Bool
  | c₁ :: c₂ :: c₃ :: rest =>
    ((c₁ = ch) && (c₂ = ch) && (c₃ = ch)) || tripled ch (c₂ :: c₃ :: rest)
  | _ => false

/-- Values produced by Python `json.loads`.  Numbers without a fraction or
exponent part are kept exactly as integers (`num`); other numeric lexemes
(floats, `NaN`, `Infinity`) are kept as the string that Python `str()` would
render them to where that is simple, since floating point is outside the
embedding (`flt`).  Objects keep their key/value pairs in source order;
lookups take the last binding, as a Python dict built left to right does. -/
inductive JValue where
  | str (s : String)
  | num (i : Int)
  | flt (raw : String)
  | bool (b : Bool)
  | null
  | arr (items : List JValue)
  | obj (fields : List (String × JValue))

mutual

/-- Python `repr()` restricted to values of `JValue`, used for the elements of
containers rendered by `str()`.  String escaping inside `repr` of a string is
not reproduced (a simplification; no claim depends on container rendering). -/
def pyRepr : JValue → String
  | .str s => "\x27" ++ s ++ "\x27"
  | .num i => toString i
  | .flt raw => raw
  | .bool b => if b then "True" else "False"
  | .null => "None"
  | .arr items => "[" ++ String.intercalate ", " (pyReprList items) ++ "]"
  | .obj fields => "\x7b" ++ String.intercalate ", " (pyReprFields fields) ++ "\x7d"

/-- The `repr`s of a list of values. -/
def pyReprList : List JValue → List String
  | [] => []
  | v :: vs => pyRepr v :: pyReprList vs

/-- The `repr`s of the key/value pairs of a dict. -/
def pyReprFields : List (String × JValue) → List String
  | [] => []
  | (k, v) :: kvs => ("\x27" ++ k ++ "\x27: " ++ pyRepr v) :: pyReprFields kvs

end

/-- Python `str()` on a value decoded from JSON (what an f-string interpolates). -/
def pyStr : JValue → String
  | .str s => s
  | v => pyRepr v

/-- Python `dict.get(k, d)` on the decoded object: the last binding of `k`
wins, as in a dict built left to right; `d` when `k` is unbound. -/
def pyDictGet (kvs : List (String × JValue)) (k : String) (d : JValue) : JValue :=
  match kvs.reverse.find? (fun p => p.1 == k) with
  | some p => p.2
  | none => d

/-- JSON whitespace accepted between tokens by Python `json.loads`. -/
def isJsonWs (c : Char) : Bool :=
  c = ' ' || c = '\t' || c = '\n' || c = '\r'

/-- Drop leading JSON whitespace. -/
def skipWs (cs : List Char) : List Char :=
  cs.dropWhile isJsonWs

/-- ASCII decimal digit test. -/
def isDigitC (c : Char) : Bool :=
  '0' ≤ c && c ≤ '9'

/-- Value of a hexadecimal digit, if the character is one. -/
def hexVal (c : Char) : Option Nat :=
  if '0' ≤ c ∧ c ≤ '9' then some (c.toNat - '0'.toNat)
  else if 'a' ≤ c ∧ c ≤ 'f' then some (c.toNat - 'a'.toNat + 10)
  else if 'A' ≤ c ∧ c ≤ 'F' then some (c.toNat - 'A'.toNat + 10)
  else none

/-- Body of a JSON string literal, after the opening quote: standard escapes,
`\uXXXX` with surrogate-pair combination, and rejection of unescaped control
characters (the strict default of Python).  A lone surrogate is rejected because a
`Char` can only hold a Unicode scalar value. -/
def parseStringBody (acc : List Char) : List Char → Option (String × List Char)
  | [] => none
  | '"' :: rest => some (⟨acc.reverse⟩, rest)
  | '\\' :: esc =>
    match esc with
    | '"' :: rest => parseStringBody ('"' :: acc) rest
    | '\\' :: rest => parseStringBody ('\\' :: acc) rest
    | '/' :: rest => parseStringBody ('/' :: acc) rest
    | 'b' :: rest => parseStringBody ('\x08' :: acc) rest
    | 'f' :: rest => parseStringBody ('\x0c' :: acc) rest
    | 'n' :: rest => parseStringBody ('\n' :: acc) rest
    | 'r' :: rest => parseStringBody ('\r' :: acc) rest
    | 't' :: rest => parseStringBody ('\t' :: acc) rest
    | 'u' :: h1 :: h2 :: h3 :: h4 :: rest =>
      match hexVal h1, hexVal h2, hexVal h3, hexVal h4 with
      | some d1, some d2, some d3, some d4 =>
        let code := ((d1 * 16 + d2) * 16 + d3) * 16 + d4
        if code < 0xd800 ∨ 0xe000 ≤ code then
          parseStringBody (Char.ofNat code :: acc) rest
        else if code ≤ 0xdbff then
          match rest with
          | '\\' :: 'u' :: k1 :: k2 :: k3 :: k4 :: rest2 =>
            match hexVal k1, hexVal k2, hexVal k3, hexVal k4 with
            | some e1, some e2, some e3, some e4 =>
              let code2 := ((e1 * 16 + e2) * 16 + e3) * 16 + e4
              if 0xdc00 ≤ code2 ∧ code2 ≤ 0xdfff then
                parseStringBody
                  (Char.ofNat (0x10000 + (code - 0xd800) * 0x400 + (code2 - 0xdc00)) :: acc) rest2
              else none
            | _, _, _, _ => none
          | _ => none
        else none
      | _, _, _, _ => none
    | _ => none
  | c :: rest => if c.toNat < 0x20 then none else parseStringBody (c :: acc) rest

/-- Leading run of decimal digits and the remainder. -/
def splitDigits (cs : List Char) : List Char × List Char :=
  (cs.takeWhile isDigitC, cs.dropWhile isDigitC)

/-- Numeric value of a digit run. -/
def digitsVal (ds : List Char) : Nat :=
  ds.foldl (fun a c => a * 10 + (c.toNat - '0'.toNat)) 0

/-- Optional fraction part `.digits` of a JSON number; like the regular
expression used by the json module of Python, it consumes nothing when the dot is not
followed by a digit. -/
def parseFracOpt : List Char → List Char × List Char
  | '.' :: t =>
    let ds := (splitDigits t).1
    if ds.isEmpty then ([], '.' :: t) else ('.' :: ds, (splitDigits t).2)
  | cs => ([], cs)

/-- Optional exponent part `[eE][+-]?digits` of a JSON number; consumes
nothing when no well-formed exponent follows. -/
def parseExpOpt : List Char → List Char × List Char
  | e :: t =>
    if e = 'e' ∨ e = 'E' then
      match t with
      | '+' :: u =>
        let ds := (splitDigits u).1
        if ds.isEmpty then ([], e :: t) else (e :: '+' :: ds, (splitDigits u).2)
      | '-' :: u =>
        let ds := (splitDigits u).1
        if ds.isEmpty then ([], e :: t) else (e :: '-' :: ds, (splitDigits u).2)
      | _ =>
        let ds := (splitDigits t).1
        if ds.isEmpty then ([], e :: t) else (e :: ds, (splitDigits t).2)
    else ([], e :: t)
  | [] => ([], [])

/-- A JSON number: `-?(0|[1-9][0-9]*)` then optional fraction and exponent;
an integer lexeme yields `JValue.num`, otherwise `JValue.flt`. -/
def parseNumber (cs : List Char) : Option (JValue × List Char) :=
  let sgn : List Char × List Char :=
    match cs with
    | '-' :: t => (['-'], t)
    | _ => ([], cs)
  match sgn.2 with
  | c :: t =>
    if isDigitC c then
      let ipr : List Char × List Char :=
        if c = '0' then (['0'], t)
        else (c :: (splitDigits t).1, (splitDigits t).2)
      let fpr := parseFracOpt ipr.2
      let epr := parseExpOpt fpr.2
      if fpr.1.isEmpty && epr.1.isEmpty then
        let n : Int := (digitsVal ipr.1 : Nat)
        some (.num (if sgn.1.isEmpty then n else -n), epr.2)
      else
        some (.flt ⟨sgn.1 ++ ipr.1 ++ fpr.1 ++ epr.1⟩, epr.2)
    else none
  | [] => none

/-- Parser modes for the single fuel-indexed JSON parsing function: a value,
the inside of an array (first item or closing bracket), the continuation of
an array after an item, and the object counterparts. -/
inductive PMode where
  | val
  | arrItems
  | arrRest (acc : List JValue)
  | objItems
  | objRest (acc : List (String × JValue))

/-- Recursive descent JSON parser in the dialect of Python `json.loads`
(which also accepts `NaN`, `Infinity` and `-Infinity`).  Structural recursion
on fuel; `json_loads` supplies more fuel than any input can consume. -/
def parseF : Nat → PMode → List Char → Option (JValue × List Char)
  | 0, _, _ => none
  | fuel + 1, .val, cs0 =>
    let cs := skipWs cs0
    match cs with
    | '"' :: rest =>
      match parseStringBody [] rest with
      | some (s, r) => some (.str s, r)
      | none => none
    | '[' :: rest => parseF fuel .arrItems rest
    | '\x7b' :: rest => parseF fuel .objItems rest
    | _ =>
      if "null".data.isPrefixOf cs then some (.null, cs.drop 4)
      else if "true".data.isPrefixOf cs then some (.bool true, cs.drop 4)
      else if "false".data.isPrefixOf cs then some (.bool false, cs.drop 5)
      else if "NaN".data.isPrefixOf cs then some (.flt "nan", cs.drop 3)
      else if "Infinity".data.isPrefixOf cs then some (.flt "inf", cs.drop 8)
      else if "-Infinity".data.isPrefixOf cs then some (.flt "-inf", cs.drop 9)
      else parseNumber cs
  | fuel + 1, .arrItems, cs0 =>
    match skipWs cs0 with
    | ']' :: rest => some (.arr [], rest)
    | cs =>
      match parseF fuel .val cs with
      | some (v, r) => parseF fuel (.arrRest [v]) r
      | none => none
  | fuel + 1, .arrRest acc, cs0 =>
    match skipWs cs0 with
    | ']' :: rest => some (.arr acc.reverse, rest)
    | ',' :: rest =>
      match parseF fuel .val rest with
      | some (v, r) => parseF fuel (.arrRest (v :: acc)) r
      | none => none
    | _ => none
  | fuel + 1, .objItems, cs0 =>
    match skipWs cs0 with
    | '\x7d' :: rest => some (.obj [], rest)
    | '"' :: rest =>
      match parseStringBody [] rest with
      | some (k, r1) =>
        match skipWs r1 with
        | ':' :: r2 =>
          match parseF fuel .val r2 with
          | some (v, r3) => parseF fuel (.objRest [(k, v)]) r3
          | none => none
        | _ => none
      | none => none
    | _ => none
  | fuel + 1, .objRest acc, cs0 =>
    match skipWs cs0 with
    | '\x7d' :: rest => some (.obj acc.reverse, rest)
    | ',' :: rest =>
      match skipWs rest with
      | '"' :: r0 =>
        match parseStringBody [] r0 with
        | some (k, r1) =>
          match skipWs r1 with
          | ':' :: r2 =>
            match parseF fuel .val r2 with
            | some (v, r3) => parseF fuel (.objRest ((k, v) :: acc)) r3
            | none => none
          | _ => none
        | none => none
      | _ => none
    | _ => none

/-- Python `json.loads`: parse one JSON value, allow trailing whitespace,
reject trailing data; `none` models a raised `json.JSONDecodeError`. -/
def json_loads (s : String) : Option JValue :=
  match parseF (4 * s.data.length + 16) .val s.data with
  | some (v, rest) => if (skipWs rest).isEmpty then some v else none
  | none => none

/-- The transformation `app.py` lines 85-93 apply to the `prompt` field:
markdown bold `**` to `*`, then CRLF normalised to LF, then every remaining
LF re-escaped to the two characters backslash-`n`. -/
def transform_prompt (p : String) : String :=
  pyReplace (pyReplace (pyReplace p "**" "*") "\r\n" "\n") "\n" "\\n"

/-- The five-line f-string of `app.py` lines 96-100. -/
def mkCommentText (ty sub pr inc scr : String) : String :=
  "type - " ++ ty ++ "\nsub_type - " ++ sub ++ "\nprompt - " ++ pr ++
    "\ninclude_screenshots - " ++ inc ++ "\nscreenshot_instructions - " ++ scr

/-- `format_comment_string` (`app.py` lines 80-104).  `Except.error` models a
Python exception escaping the function: only `json.JSONDecodeError` is caught,
so `data.get` on a non-dict and `.replace` on a non-string `prompt` raise
`AttributeError`.  `Except.ok none` models the caught decode failure, where
the function reports a Streamlit error message and returns `None`;
`Except.ok (some t)` is the returned comment text. -/
def format_comment_string (json_string : String) : Except String (Option String) :=
  match json_loads json_string with
  | none => .ok none
  | some (.obj kvs) =>
    match pyDictGet kvs "prompt" (.str "") with
    | .str p =>
      .ok (some (mkCommentText
        (pyStr (pyDictGet kvs "type" (.str "")))
        (pyStr (pyDictGet kvs "sub_type" (.str "")))
        (transform_prompt p)
        (pyStr (pyDictGet kvs "include_screenshots" (.str "no")))
        (pyStr (pyDictGet kvs "screenshot_instructions" (.str "none")))))
    | _ => .error "AttributeError: replace on non-string prompt"
  | some _ => .error "AttributeError: get on non-dict"

/-- One row of the Step 2 input-file table (`app.py` session state): a dict
with keys `name`, `type`, `description`. -/
structure InputFile where
  name : String
  ftype : String
  description : String

/-- One itemized input-file line of the meta prompt (`app.py` line 27). -/
def fileLine (f : InputFile) : String :=
  "- **" ++ f.name ++ "** (" ++ f.ftype ++ "): " ++ f.description ++ "\n"

/-- Concatenation of a list of strings (the `+=` accumulation loop). -/
def concatStrings : List String → String
  | [] => ""
  | s :: rest => s ++ concatStrings rest

/-- The input-files context block (`app.py` lines 23-27): empty for an empty
list, otherwise a header line followed by one itemized line per file. -/
def input_files_context (input_files : List InputFile) : String :=
  if input_files.isEmpty then ""
  else "**Available Input Files:**\n" ++ concatStrings (input_files.map fileLine)

/-- Literal segment 0 of the meta-prompt f-string (`app.py` lines 29-77),
the text between two interpolation sites. -/
def metaS0 : String :=
  "\n    You are an AI assistant specialized in creating configuration prompts for a tool called Klarity Architect.\n    Your task is to generate the configuration for a single section of a template.\n\n    **Master Template Context:**\n    ---\n    "

/-- Literal segment 1 of the meta-prompt f-string (`app.py` lines 29-77),
the text between two interpolation sites. -/
def metaS1 : String :=
  "\n    ---\n\n    "

/-- Literal segment 2 of the meta-prompt f-string (`app.py` lines 29-77),
the text between two interpolation sites. -/
def metaS2 : String :=
  "\n\n    **Section Details to Configure:**\n    *   **Section Title:** \""

/-- Literal segment 3 of the meta-prompt f-string (`app.py` lines 29-77),
the text between two interpolation sites. -/
def metaS3 : String :=
  "\"\n    *   **Plain Language Goal:** \""

/-- Literal segment 4 of the meta-prompt f-string (`app.py` lines 29-77),
the text between two interpolation sites. -/
def metaS4 : String :=
  "\"\n    *   **Required Output Format:** \""

/-- Part 0 of literal segment 5 of the meta-prompt f-string; the segment
is stored in chunks of at most 450 characters only so that kernel evaluation
over it stays within stack limits — `metaS5` below is their concatenation. -/
def metaS5c0 : String :=
  "\"\n\n    **Your Instructions:**\n    Based on all the information above, you must generate a detailed, expert-level prompt that a second LLM will use to extract information from documents. This prompt MUST be self-contained and structured with **Role**, **Context**, **Task**, and **Instructions**. It should be highly specific and actionable.\n\n    **CRITICAL: You MUST follow this EXACT template format. Do not deviate from the line breaks or structure"

/-- Part 1 of literal segment 5 of the meta-prompt f-string; the segment
is stored in chunks of at most 450 characters only so that kernel evaluation
over it stays within stack limits — `metaS5` below is their concatenation. -/
def metaS5c1 : String :=
  ":**\n\n    TEMPLATE:\n    \"*Role:* [Your role description here]\\n\\n*Context:* [Your context description here]\\n\\n*Task:* [Your task description here]\\n\\n*Instructions:*\\n\\n1. [First instruction]\\n2. [Second instruction]\\n3. [Third instruction]\"\n\n    **REQUIREMENTS:**\n    - Use *Role:*, *Context:*, *Task:*, and *Instructions:* (with asterisks)\n    - You MUST use \\n\\n (double line breaks) between sections: after Role, after Context, after Task\n    - Y"

/-- Part 2 of literal segment 5 of the meta-prompt f-string; the segment
is stored in chunks of at most 450 characters only so that kernel evaluation
over it stays within stack limits — `metaS5` below is their concatenation. -/
def metaS5c2 : String :=
  "ou MUST use \\n\\n (double line breaks) after *Instructions:* and before the first numbered item\n    - Use \\n (single line break) for bullet points within instructions\n    - Number the instructions with 1., 2., 3., etc.\n    - Use bullet points (*) for sub-items within instructions\n    - Consider the available input files when crafting the Context and Instructions sections\n\n    In addition to the main prompt, determine the best \x27sub_type\x27 for the \x27"

/-- Literal segment 5 of the meta-prompt f-string (`app.py` lines 29-77),
the text between two interpolation sites. -/
def metaS5 : String :=
  metaS5c0 ++ metaS5c1 ++ metaS5c2

/-- Part 0 of literal segment 6 of the meta-prompt f-string; the segment
is stored in chunks of at most 450 characters only so that kernel evaluation
over it stays within stack limits — `metaS6` below is their concatenation. -/
def metaS6c0 : String :=
  "\x27.\n    *   If format is \x27Text\x27, the sub_type must be \x27freeform\x27 or \x27bulleted\x27.\n    *   If format is \x27Table\x27, the sub_type must be \x27default\x27.\n\n    **CRITICAL OUTPUT FORMAT:**\n    You must respond with ONLY a single, valid JSON object. Do not add any conversational text, explanations, or markdown formatting like ```json. The JSON object must have these exact keys: \"type\", \"sub_type\", \"prompt\", \"include_screenshots\", \"screenshot_instructions\".\n\n    "

/-- Part 1 of literal segment 6 of the meta-prompt f-string; the segment
is stored in chunks of at most 450 characters only so that kernel evaluation
over it stays within stack limits — `metaS6` below is their concatenation. -/
def metaS6c1 : String :=
  "Example of a perfect response:\n    \x7b\n        \"type\": \"text\",\n        \"sub_type\": \"freeform\",\n        \"prompt\": \"*Role:* You are an expert Senior Implementation Consultant at Tekion, specializing in large, complex dealer groups. You are highly proficient in both legacy DMS structures (like CDK and DealerTrack) and the advanced capabilities of Tekion\x27s Automotive Retail Cloud.\\n\\n*Context:* You are reviewing the provided discovery call transcript(s"

/-- Part 2 of literal segment 6 of the meta-prompt f-string; the segment
is stored in chunks of at most 450 characters only so that kernel evaluation
over it stays within stack limits — `metaS6` below is their concatenation. -/
def metaS6c2 : String :=
  ") with a new dealership prospect. You have already been provided with a comprehensive *Tekion Knowledge Base* in the \x27Additional Instructions\x27, detailing all Tekion platform features, terminology (Instances, Sites, Prefixes, BOC), and standard configurations. You must leverage this internal knowledge to interpret the dealer\x27s current state and its implications for a Tekion implementation.\\n\\n*Task:* Your task is to draft the *Executive Summary & "

/-- Part 3 of literal segment 6 of the meta-prompt f-string; the segment
is stored in chunks of at most 450 characters only so that kernel evaluation
over it stays within stack limits — `metaS6` below is their concatenation. -/
def metaS6c3 : String :=
  "Key Implementation Themes* section for an internal implementation blueprint document. This section must be concise and strategic, designed for a Tekion Engagement Manager who needs to quickly understand the core nature of the project.\\n\\n*Instructions:*\\n\\n1. *Executive Summary:* First, write a brief paragraph summarizing the dealership\x27s profile. Include:\\n * The dealer group\x27s name.\\n * Their scale (e.g., number of rooftops, brands mentioned).\\"

/-- Part 4 of literal segment 6 of the meta-prompt f-string; the segment
is stored in chunks of at most 450 characters only so that kernel evaluation
over it stays within stack limits — `metaS6` below is their concatenation. -/
def metaS6c4 : String :=
  "n * Their current DMS (e.g., CDK, Autosoft).\\n * Their core operational and accounting structure (e.g., centralized accounting under a BOC, single tax ID, how they currently structure multi-brand companies).\\n\\n2. *Key Implementation Themes:* After the summary, identify and articulate the *3-4 most critical, overarching themes* for this implementation. These are not just individual findings but the strategic pillars that will define the project\x27s"

/-- Part 5 of literal segment 6 of the meta-prompt f-string; the segment
is stored in chunks of at most 450 characters only so that kernel evaluation
over it stays within stack limits — `metaS6` below is their concatenation. -/
def metaS6c5 : String :=
  " complexity and success. For each theme, provide a brief sentence explaining its significance.\\n\\n * *Focus on Synthesis, Not Just Summary:* Do not list every detail. Synthesize related issues into a single strategic theme.\\n * *Examples of good themes:*\\n * `Complex Company Restructuring:` if the dealer has many brands combined under single legacy company numbers that need to be untangled into proper Tekion Sites or Instances.\\n * `Significant P"

/-- Part 6 of literal segment 6 of the meta-prompt f-string; the segment
is stored in chunks of at most 450 characters only so that kernel evaluation
over it stays within stack limits — `metaS6` below is their concatenation. -/
def metaS6c6 : String :=
  "rocess Modernization:` if the dealer relies heavily on manual workarounds, Excel, or outdated third-party tools (like Filebound) that will be replaced by Tekion.\\n * `Navigating Non-Standard Accounting Workflows:` if the dealer has unique intercompany transaction methods or treats internal entities (like a body shop) as external vendors.\\n * `Critical State-Specific Configuration:` if there are unique tax, title, or legal requirements (like the P"

/-- Part 7 of literal segment 6 of the meta-prompt f-string; the segment
is stored in chunks of at most 450 characters only so that kernel evaluation
over it stays within stack limits — `metaS6` below is their concatenation. -/
def metaS6c7 : String :=
  "ennsylvania trade-in tax issue) that demand precise setup.\",\n        \"include_screenshots\": \"no\",\n        \"screenshot_instructions\": \"none\"\n    \x7d\n    "

/-- Literal segment 6 of the meta-prompt f-string (`app.py` lines 29-77),
the text between two interpolation sites. -/
def metaS6 : String :=
  metaS6c0 ++ metaS6c1 ++ metaS6c2 ++ metaS6c3 ++ metaS6c4 ++ metaS6c5 ++ metaS6c6 ++ metaS6c7

/-- `create_meta_prompt` (`app.py` lines 19-77): the meta-prompt f-string
with the master context, the input-files context block, the section title,
goal and output format interpolated at their six sites. -/
def create_meta_prompt (master_context : String) (input_files : List InputFile)
    (section_title section_goal output_format : String) : String :=
  metaS0 ++ master_context ++ metaS1 ++ input_files_context input_files ++ metaS2 ++
    section_title ++ metaS3 ++ section_goal ++ metaS4 ++ output_format ++ metaS5 ++
    output_format ++ metaS6

/-- A processed section (`app.py` line 271): the section title and the
comment string, absent when `format_comment_string` returned `None`. -/
structure ProcessedSection where
  title : String
  comment_string : Option String

/-- An anchored review comment in the output document, with the fixed author
label of `app.py` lines 123-128. -/
structure DocComment where
  text : String
  author : String
  initials : String

/-- One heading of the output document, optionally carrying the anchored
comment bound to its text run. -/
structure DocHeading where
  title : String
  level : Nat
  comment : Option DocComment

/-- Python truthiness of an optional string, as tested by
the `if` guard that `create_docx` applies to `comment_string` — `None` and the empty string are falsy. -/
def pyTruthyStrOpt : Option String → Bool
  | none => false
  | some s => !s.isEmpty

/-- `create_docx` (`app.py` lines 107-137), abstracting the binary `.docx`
serialisation to the list of headings it contains: one level-1 heading per
processed section in order, carrying an anchored comment with author
`"System"` and initials `"S"` exactly when the `comment_string` of the section is
truthy.  The `template_title` parameter is accepted and ignored, as in the
source (the title header was removed, see the comment on line 110). -/
def create_docx (template_title : String) (processed_sections : List ProcessedSection) :
    List DocHeading :=
  processed_sections.map (fun s =>
    if pyTruthyStrOpt s.comment_string then
      { title := s.title, level := 1,
        comment := some { text := s.comment_string.getD "", author := "System", initials := "S" } }
    else
      { title := s.title, level := 1, comment := none })

/-- The per-section generation loop (`app.py` lines 246-271), abstracted over
the model replies: each pair is a section title together with the reply text
for that section; a reply whose transformation raises propagates out of the
loop to the outer handler (`Except.error`), otherwise the processed section
list is accumulated in order. -/
def process_sections : List (String × String) → Except String (List ProcessedSection)
  | [] => .ok []
  | (title, reply) :: rest =>
    match format_comment_string reply with
    | .error e => .error e
    | .ok c =>
      match process_sections rest with
      | .error e => .error e
      | .ok l => .ok (⟨title, c⟩ :: l)

/-- One row of the Step 3 section table: a dict with keys `title`, `format`,
`goal`. -/
structure SectionSpec where
  title : String
  format : String
  goal : String

/-- Python falsiness of `s.strip()` as used in the validation chain
(`not master_context.strip()` and friends). -/
def blank (s : String) : Bool :=
  (pyStrip s).data.isEmpty

/-- Outcome of pressing the Generate Template button: an inline warning from
the validation chain, or the result of the generation batch. -/
inductive GenOutcome where
  | warned (msg : String)
  | proceeded (result : Except String (List ProcessedSection))

/-- Whether the outcome is an inline validation warning (in which case no
external call and no section processing happened). -/
def isWarned : GenOutcome → Bool
  | .warned _ => true
  | .proceeded _ => false

/-- The Generate Template button handler (`app.py` lines 221-291): the
validation chain in source order, then the sequential generation batch.  The
external model is abstracted as a pure oracle `respond` from the meta prompt
to the reply text; constructing and using the oracle only happens in the
`proceeded` branch, after every validation has passed. -/
def generate_handler (master_context : String) (input_files : List InputFile)
    (sections : List SectionSpec) (respond : String → String) : GenOutcome :=
  if blank master_context then
    .warned "Please provide a Master Context before generating."
  else if input_files.isEmpty then
    .warned "Please add at least one input file."
  else if input_files.any (fun f => blank f.name) then
    .warned "Please provide names for all input files."
  else if input_files.any (fun f => blank f.description) then
    .warned "Please provide descriptions for all input files."
  else if sections.isEmpty then
    .warned "Please add at least one section."
  else if sections.any (fun s => blank s.title) then
    .warned "Please provide titles for all sections."
  else if sections.any (fun s => blank s.goal) then
    .warned "Please provide goals for all sections."
  else
    .proceeded (process_sections (sections.map (fun s =>
      (s.title, respond (create_meta_prompt master_context input_files s.title s.goal s.format)))))

/-- The download file name (`app.py` line 280): fixed prefix, then the first
title of the first section split at the `&` character, first part, stripped, spaces replaced by
underscores, then the fixed extension. -/
def download_file_name (first_title : String) : String :=
  "Klarity_Template_" ++
    pyReplace (pyStrip ⟨(splitOnC '&' first_title.data).headD []⟩) " " "_" ++ ".docx"

/-- Modelled from the spec (section 6, "Output artifact"): the file name is
the fixed prefix and extension around the text of the first section title
before its first `&` character, trimmed of surrounding whitespace, with
spaces replaced by underscores. -/
def spec_file_name (first_title : String) : String :=
  "Klarity_Template_" ++
    ⟨(pyStripL (first_title.data.takeWhile (fun c => c ≠ '&'))).map
      (fun c => if c = ' ' then '_' else c)⟩ ++ ".docx"


/-! ### General lemmas about the string utilities -/

/-- String concatenation acts as list concatenation on the underlying data. -/
theorem strData_append (s t : String) : (s ++ t).data = s.data ++ t.data := rfl

/-- A prefix test only inspects the first `pat.length` characters. -/
theorem isPrefixOf_take (pat l : List Char) :
    pat.isPrefixOf l = pat.isPrefixOf (l.take pat.length) := by
  induction pat generalizing l with
  | nil => simp [List.isPrefixOf]
  | cons p ps ih =>
    cases l with
    | nil => simp
    | cons c cs => simp [List.isPrefixOf, ih cs]

/-- Being a prefix of a prefix of `l` implies being a prefix of `l`. -/
theorem isPrefixOf_of_take (pat l : List Char) (n : Nat)
    (h : pat.isPrefixOf (l.take n) = true) : pat.isPrefixOf l = true := by
  induction pat generalizing l n with
  | nil => simp [List.isPrefixOf]
  | cons p ps ih =>
    cases l with
    | nil => simp at h
    | cons c cs =>
      cases n with
      | zero => simp [List.take] at h
      | succ m =>
        simp only [List.take, List.isPrefixOf, Bool.and_eq_true] at h ⊢
        exact ⟨h.1, ih cs m h.2⟩

/-- A pattern is a prefix of itself followed by anything. -/
theorem isPrefixOf_append_self (pat rest : List Char) :
    pat.isPrefixOf (pat ++ rest) = true := by
  induction pat with
  | nil => simp [List.isPrefixOf]
  | cons p ps ih => simp [List.isPrefixOf, ih]

/-- A substring of a prefix of `l` is a substring of `l`. -/
theorem isSubOf_of_take (pat l : List Char) (n : Nat)
    (h : isSubOf pat (l.take n) = true) : isSubOf pat l = true := by
  induction l generalizing n with
  | nil => simpa using h
  | cons c cs ih =>
    cases n with
    | zero =>
      simp only [List.take, isSubOf] at h
      cases pat with
      | nil => simp [isSubOf, List.isPrefixOf]
      | cons p ps => simp [List.isEmpty] at h
    | succ m =>
      simp only [List.take, isSubOf, Bool.or_eq_true] at h ⊢
      rcases h with h | h
      · exact Or.inl (isPrefixOf_of_take pat (c :: cs) (m + 1) h)
      · exact Or.inr (ih m h)

/-- Substring occurrences in `a ++ b` either lie inside `a` extended by the
first `pat.length - 1` characters of `b`, or inside `b`. -/
theorem isSubOf_append (pat a b : List Char) :
    isSubOf pat (a ++ b) =
      (isSubOf pat (a ++ b.take (pat.length - 1)) || isSubOf pat b) := by
  induction a with
  | nil =>
    simp only [List.nil_append]
    cases h : isSubOf pat b with
    | true => simp [h]
    | false =>
      cases h2 : isSubOf pat (b.take (pat.length - 1)) with
      | true => rw [isSubOf_of_take pat b _ h2] at h; cases h
      | false => simp [h, h2]
  | cons c a' ih =>
    have htake : (c :: (a' ++ b)).take pat.length =
        (c :: (a' ++ b.take (pat.length - 1))).take pat.length := by
      cases pat with
      | nil => simp
      | cons p ps =>
        simp only [List.length_cons, List.take, Nat.add_sub_cancel]
        rw [List.take_append_eq_append_take, List.take_append_eq_append_take,
          List.take_take, Nat.min_eq_left (Nat.sub_le _ _)]
    have hp : pat.isPrefixOf (c :: (a' ++ b)) =
        pat.isPrefixOf (c :: (a' ++ b.take (pat.length - 1))) := by
      rw [isPrefixOf_take, htake, ← isPrefixOf_take]
    simp only [List.cons_append, isSubOf, List.append_eq, ih, hp, Bool.or_assoc]

/-- Peeling one chunk off a non-containment goal. -/
theorem noSub_step (pat a b : List Char)
    (h₁ : isSubOf pat (a ++ b.take (pat.length - 1)) = false)
    (h₂ : isSubOf pat b = false) :
    isSubOf pat (a ++ b) = false := by
  rw [isSubOf_append, h₁, h₂]
  rfl

/-- A list of the shape `pre ++ pat ++ post` contains `pat` as a substring. -/
theorem isSubOf_of_parts (pat pre post l : List Char) (h : l = pre ++ (pat ++ post)) :
    isSubOf pat l = true := by
  subst h
  induction pre with
  | nil =>
    cases pat with
    | nil =>
      cases post with
      | nil => rfl
      | cons q qs => simp [isSubOf, List.isPrefixOf]
    | cons p ps => simp [isSubOf, isPrefixOf_append_self]
  | cons c pre' ih => simp [isSubOf, ih]

/-- A list without the separator splits into a single chunk. -/
theorem splitOnC_no_sep (sep : Char) (a : List Char) (h : a.count sep = 0) :
    splitOnC sep a = [a] := by
  induction a with
  | nil => rfl
  | cons c cs ih =>
    rw [List.count_cons] at h
    have hc : ¬ c = sep := by
      intro he
      simp [he] at h
    have hcs : cs.count sep = 0 := by omega
    simp [splitOnC, hc, ih hcs]

/-- Splitting at the first separator after a separator-free chunk. -/
theorem splitOnC_append_cons (sep : Char) (a b : List Char) (h : a.count sep = 0) :
    splitOnC sep (a ++ sep :: b) = a :: splitOnC sep b := by
  induction a with
  | nil => simp [splitOnC]
  | cons c cs ih =>
    rw [List.count_cons] at h
    have hc : ¬ c = sep := by
      intro he
      simp [he] at h
    have hcs : cs.count sep = 0 := by omega
    simp [splitOnC, hc, ih hcs]

/-- The first chunk of a split is the longest separator-free prefix. -/
theorem splitOnC_head (sep : Char) (l : List Char) :
    ∃ t, splitOnC sep l = l.takeWhile (fun c => !(c = sep)) :: t := by
  induction l with
  | nil => exact ⟨[], rfl⟩
  | cons c cs ih =>
    by_cases hc : c = sep
    · subst hc
      refine ⟨splitOnC c cs, ?_⟩
      simp [splitOnC, List.takeWhile]
    · obtain ⟨t, ht⟩ := ih
      refine ⟨t, ?_⟩
      simp [splitOnC, hc, ht, List.takeWhile]

/-- Replacement of a single-character pattern by a single character is a map. -/
theorem pyReplaceAux_single_map (ch r : Char) (fuel : Nat) (l : List Char)
    (h : l.length ≤ fuel) :
    pyReplaceAux [ch] [r] fuel l = l.map (fun c => if c = ch then r else c) := by
  induction fuel generalizing l with
  | zero =>
    cases l with
    | nil => rfl
    | cons c cs => simp at h
  | succ fuel ih =>
    cases l with
    | nil => rfl
    | cons c cs =>
      simp only [List.length_cons, Nat.succ_le_succ_iff] at h
      by_cases hc : c = ch
      · subst hc
        simp [pyReplaceAux, List.isPrefixOf, ih cs h]
      · have : ([ch].isPrefixOf (c :: cs)) = false := by
          simp [List.isPrefixOf]
          intro he
          exact absurd he.symm hc
        simp [pyReplaceAux, this, hc, ih cs h]

/-- After replacing every LF by backslash-`n`, no LF remains. -/
theorem pyReplaceAux_nl_not_mem (fuel : Nat) (l : List Char) (h : l.length ≤ fuel) :
    ('\n' ∈ pyReplaceAux ['\n'] ['\\', 'n'] fuel l) = False := by
  simp only [eq_iff_iff, iff_false]
  induction fuel generalizing l with
  | zero =>
    cases l with
    | nil => simp [pyReplaceAux]
    | cons c cs => simp at h
  | succ fuel ih =>
    cases l with
    | nil => simp [pyReplaceAux]
    | cons c cs =>
      simp only [List.length_cons, Nat.succ_le_succ_iff] at h
      by_cases hc : c = '\n'
      · subst hc
        have hpre : (['\n'].isPrefixOf ('\n' :: cs)) = true := by
          simp [List.isPrefixOf]
        simp only [pyReplaceAux, hpre, if_true]
        intro hmem
        simp only [List.length_cons, List.length_nil, Nat.zero_add, Nat.sub_self,
          List.drop_zero, List.cons_append, List.nil_append, List.mem_cons] at hmem
        rcases hmem with h1 | h2 | h3
        · exact absurd h1 (by decide)
        · exact absurd h2 (by decide)
        · exact (ih cs h) h3
      · have hpre : (['\n'].isPrefixOf (c :: cs)) = false := by
          simp only [List.isPrefixOf, Bool.and_eq_true, beq_iff_eq,
            Bool.and_eq_false_iff]
          left
          simp only [beq_eq_false_iff_ne, ne_eq]
          intro he
          exact hc he.symm
        simp only [pyReplaceAux, hpre, Bool.false_eq_true, if_false]
        intro hmem
        rcases List.mem_cons.mp hmem with h1 | h2
        · exact hc h1.symm
        · exact (ih cs h) h2

/-- The prompt transformation leaves no LF character in its output. -/
theorem countNL_transform_prompt (p : String) : countNL (transform_prompt p) = 0 := by
  have hne : ("\n".data.isEmpty) = false := by decide
  unfold transform_prompt
  unfold pyReplace
  rw [if_neg (by simp [hne])]
  set l := (pyReplace (pyReplace p "**" "*") "\r\n" "\n").data with hl
  unfold countNL
  rw [List.count_eq_zero]
  intro hmem
  have := pyReplaceAux_nl_not_mem l.length l (Nat.le_refl _)
  rw [eq_iff_iff, iff_false] at this
  exact this (by exact hmem)

/-- Dropping the head preserves absence of a doubled character. -/
theorem doubled_tail (ch c : Char) (cs : List Char) (h : doubled ch (c :: cs) = false) :
    doubled ch cs = false := by
  cases cs with
  | nil => rfl
  | cons c2 cs2 =>
    simp only [doubled, Bool.or_eq_false_iff] at h
    exact h.2

/-- Dropping any prefix preserves absence of a doubled character. -/
theorem doubled_drop (ch : Char) (n : Nat) (l : List Char) (h : doubled ch l = false) :
    doubled ch (l.drop n) = false := by
  induction n generalizing l with
  | zero => simpa using h
  | succ n ihn =>
    cases l with
    | nil => rfl
    | cons c cs => exact ihn cs (doubled_tail ch c cs h)

/-- Dropping the head preserves absence of a tripled character. -/
theorem tripled_tail (ch c : Char) (cs : List Char) (h : tripled ch (c :: cs) = false) :
    tripled ch cs = false := by
  cases cs with
  | nil => rfl
  | cons c2 cs2 =>
    cases cs2 with
    | nil => rfl
    | cons c3 cs3 =>
      simp only [tripled, Bool.or_eq_false_iff] at h
      exact h.2

/-- Prepending a list free of `ch` does not create a doubled `ch`. -/
theorem doubled_append_left (ch : Char) (a b : List Char) (ha : ch ∉ a) :
    doubled ch (a ++ b) = doubled ch b := by
  induction a with
  | nil => rfl
  | cons c a2 iha =>
    have hc : ¬ c = ch := fun he => ha (he ▸ List.mem_cons_self c a2)
    have ha2 : ch ∉ a2 := fun hm => ha (List.mem_cons_of_mem c hm)
    rw [List.cons_append]
    cases hab : a2 ++ b with
    | nil =>
      obtain ⟨h2, hb⟩ := List.append_eq_nil.mp hab
      subst hb
      rfl
    | cons x xs =>
      calc doubled ch (c :: x :: xs)
          = ((decide (c = ch) && decide (x = ch)) || doubled ch (x :: xs)) := rfl
        _ = doubled ch (x :: xs) := by simp [hc]
        _ = doubled ch (a2 ++ b) := by rw [hab]
        _ = doubled ch b := iha ha2

/-- Replacing `**` by `*` left to right in a prompt with no run of three
stars leaves no doubled star, and the output starts with a star only if the
input did. -/
theorem star_replace_ok : ∀ (fuel : Nat) (l : List Char), l.length ≤ fuel →
    tripled '*' l = false →
    doubled '*' (pyReplaceAux ['*', '*'] ['*'] fuel l) = false ∧
    (∀ rest, pyReplaceAux ['*', '*'] ['*'] fuel l = '*' :: rest → ∃ l₀, l = '*' :: l₀) := by
  intro fuel
  induction fuel with
  | zero =>
    intro l hlen _
    cases l with
    | nil => exact ⟨rfl, fun rest h => by cases h⟩
    | cons c cs => simp at hlen
  | succ fuel ih =>
    intro l hlen htri
    cases l with
    | nil => exact ⟨rfl, fun rest h => by cases h⟩
    | cons c cs =>
      simp only [List.length_cons, Nat.succ_le_succ_iff] at hlen
      by_cases hpre : (['*', '*'].isPrefixOf (c :: cs)) = true
      · obtain ⟨hc, cs2, hcs⟩ : c = '*' ∧ ∃ cs2, cs = '*' :: cs2 := by
          cases cs with
          | nil => simp [List.isPrefixOf] at hpre
          | cons c2 cs2 =>
            simp only [List.isPrefixOf, Bool.and_eq_true, beq_iff_eq] at hpre
            exact ⟨hpre.1.symm, cs2, by rw [hpre.2.1]⟩
        subst hc
        subst hcs
        have hlen2 : cs2.length ≤ fuel := by
          simp only [List.length_cons] at hlen
          omega
        have hhead : ∀ l₀, cs2 = '*' :: l₀ → False := by
          intro l₀ he
          rw [he] at htri
          simp [tripled] at htri
        have htri2 : tripled '*' cs2 = false :=
          tripled_tail '*' _ _ (tripled_tail '*' _ _ htri)
        have ihx := ih cs2 hlen2 htri2
        have hstep : pyReplaceAux ['*', '*'] ['*'] (fuel + 1) ('*' :: '*' :: cs2) =
            '*' :: pyReplaceAux ['*', '*'] ['*'] fuel cs2 := by
          simp [pyReplaceAux, hpre]
        rw [hstep]
        constructor
        · cases haux : pyReplaceAux ['*', '*'] ['*'] fuel cs2 with
          | nil => rfl
          | cons d ds =>
            by_cases hd : d = '*'
            · obtain ⟨l₀, hcs⟩ := ihx.2 ds (by rw [haux, hd])
              exact absurd hcs (fun he => hhead l₀ he)
            · have h2 : doubled '*' (d :: ds) = false := haux ▸ ihx.1
              calc doubled '*' ('*' :: d :: ds)
                  = ((decide ('*' = '*') && decide (d = '*')) || doubled '*' (d :: ds)) := rfl
                _ = false := by simp [hd, h2]
        · intro rest _
          exact ⟨'*' :: cs2, rfl⟩
      · have htri2 : tripled '*' cs = false := tripled_tail '*' _ _ htri
        have ihx := ih cs hlen htri2
        have hstep : pyReplaceAux ['*', '*'] ['*'] (fuel + 1) (c :: cs) =
            c :: pyReplaceAux ['*', '*'] ['*'] fuel cs := by
          simp only [Bool.not_eq_true] at hpre
          simp [pyReplaceAux, hpre]
        rw [hstep]
        constructor
        · cases haux : pyReplaceAux ['*', '*'] ['*'] fuel cs with
          | nil => rfl
          | cons d ds =>
            have h2 : doubled '*' (d :: ds) = false := haux ▸ ihx.1
            have hnand : (decide (c = '*') && decide (d = '*')) = false := by
              by_cases hc : c = '*'
              · by_cases hd : d = '*'
                · exfalso
                  obtain ⟨l₀, hcs⟩ := ihx.2 ds (by rw [haux, hd])
                  rw [hc, hcs] at hpre
                  simp [List.isPrefixOf] at hpre
                · simp [hd]
              · simp [hc]
            calc doubled '*' (c :: d :: ds)
                = ((decide (c = '*') && decide (d = '*')) || doubled '*' (d :: ds)) := rfl
              _ = false := by rw [hnand, h2, Bool.false_or]
        · intro rest hrest
          have hc : c = '*' := (List.cons.injEq _ _ _ _ ▸ hrest).1
          exact ⟨cs, by rw [hc]⟩

/-- A replacement whose pattern and replacement are star-free, with a
nonempty replacement, neither creates a doubled star nor a new leading star. -/
theorem starfree_replace_ok (pat repl : List Char)
    (hrepl : '*' ∉ repl) (hne : repl ≠ []) :
    ∀ (fuel : Nat) (l : List Char), l.length ≤ fuel →
    doubled '*' l = false →
    doubled '*' (pyReplaceAux pat repl fuel l) = false ∧
    (∀ rest, pyReplaceAux pat repl fuel l = '*' :: rest → ∃ l₀, l = '*' :: l₀) := by
  intro fuel
  induction fuel with
  | zero =>
    intro l hlen _
    cases l with
    | nil => exact ⟨rfl, fun rest h => by cases h⟩
    | cons c cs => simp at hlen
  | succ fuel ih =>
    intro l hlen hdou
    cases l with
    | nil => exact ⟨rfl, fun rest h => by cases h⟩
    | cons c cs =>
      simp only [List.length_cons, Nat.succ_le_succ_iff] at hlen
      by_cases hpre : (pat.isPrefixOf (c :: cs)) = true
      · have hstep : pyReplaceAux pat repl (fuel + 1) (c :: cs) =
            repl ++ pyReplaceAux pat repl fuel (cs.drop (pat.length - 1)) := by
          simp [pyReplaceAux, hpre]
        rw [hstep]
        have hlen2 : (cs.drop (pat.length - 1)).length ≤ fuel := by
          rw [List.length_drop]
          omega
        have hdou2 : doubled '*' (cs.drop (pat.length - 1)) = false :=
          doubled_drop '*' _ cs (doubled_tail '*' c cs hdou)
        have ihx := ih (cs.drop (pat.length - 1)) hlen2 hdou2
        constructor
        · rw [doubled_append_left '*' repl _ hrepl]
          exact ihx.1
        · intro rest hrest
          cases repl with
          | nil => exact absurd rfl hne
          | cons r0 rs =>
            have hr0 : r0 = '*' := (List.cons.injEq _ _ _ _ ▸ hrest).1
            exact absurd (hr0 ▸ List.mem_cons_self r0 rs) hrepl
      · have hdou2 : doubled '*' cs = false := doubled_tail '*' c cs hdou
        have ihx := ih cs hlen hdou2
        have hstep : pyReplaceAux pat repl (fuel + 1) (c :: cs) =
            c :: pyReplaceAux pat repl fuel cs := by
          simp only [Bool.not_eq_true] at hpre
          simp [pyReplaceAux, hpre]
        rw [hstep]
        constructor
        · cases haux : pyReplaceAux pat repl fuel cs with
          | nil => rfl
          | cons d ds =>
            have h2 : doubled '*' (d :: ds) = false := haux ▸ ihx.1
            have hnand : (decide (c = '*') && decide (d = '*')) = false := by
              by_cases hc : c = '*'
              · by_cases hd : d = '*'
                · exfalso
                  obtain ⟨l₀, hcs⟩ := ihx.2 ds (by rw [haux, hd])
                  rw [hc, hcs] at hdou
                  simp [doubled] at hdou
                · simp [hd]
              · simp [hc]
            calc doubled '*' (c :: d :: ds)
                = ((decide (c = '*') && decide (d = '*')) || doubled '*' (d :: ds)) := rfl
              _ = false := by rw [hnand, h2, Bool.false_or]
        · intro rest hrest
          have hc : c = '*' := (List.cons.injEq _ _ _ _ ▸ hrest).1
          exact ⟨cs, by rw [hc]⟩

/-- The full prompt transformation keeps the output free of doubled stars
whenever the input has no run of three stars. -/
theorem transform_prompt_no_doubled (p : String) (h : tripled '*' p.data = false) :
    doubled '*' (transform_prompt p).data = false := by
  have h1 : doubled '*' (pyReplace p "**" "*").data = false := by
    have : pyReplace p "**" "*" = ⟨pyReplaceAux ['*', '*'] ['*'] p.data.length p.data⟩ := by
      simp [pyReplace]
    rw [this]
    exact (star_replace_ok p.data.length p.data (Nat.le_refl _) h).1
  have h2 : doubled '*' (pyReplace (pyReplace p "**" "*") "\r\n" "\n").data = false := by
    set q := pyReplace p "**" "*" with hq
    have : pyReplace q "\r\n" "\n" = ⟨pyReplaceAux ['\r', '\n'] ['\n'] q.data.length q.data⟩ := by
      simp [pyReplace]
    rw [this]
    exact (starfree_replace_ok ['\r', '\n'] ['\n'] (by decide) (by decide)
      q.data.length q.data (Nat.le_refl _) h1).1
  set r := pyReplace (pyReplace p "**" "*") "\r\n" "\n" with hr
  have : transform_prompt p = ⟨pyReplaceAux ['\n'] ['\\', 'n'] r.data.length r.data⟩ := by
    simp [transform_prompt, pyReplace, hr]
  rw [this]
  exact (starfree_replace_ok ['\n'] ['\\', 'n'] (by decide) (by decide)
    r.data.length r.data (Nat.le_refl _) h2).1

/-- Rebuilding a string from the concatenation of the data of two strings. -/
theorem strMk_append (s t : String) : String.mk (s.data ++ t.data) = s ++ t := rfl

/-- The comment block of `mkCommentText` splits into exactly the five field
lines, in order, provided none of the interpolated values contains an LF. -/
theorem linesOf_mkCommentText (ty sub pr inc scr : String)
    (h1 : countNL ty = 0) (h2 : countNL sub = 0) (h3 : countNL pr = 0)
    (h4 : countNL inc = 0) (h5 : countNL scr = 0) :
    linesOf (mkCommentText ty sub pr inc scr) =
      ["type - " ++ ty, "sub_type - " ++ sub, "prompt - " ++ pr,
       "include_screenshots - " ++ inc, "screenshot_instructions - " ++ scr] := by
  have hdata : (mkCommentText ty sub pr inc scr).data =
      ("type - ".data ++ ty.data) ++ '\n' :: (("sub_type - ".data ++ sub.data) ++ '\n' ::
        (("prompt - ".data ++ pr.data) ++ '\n' ::
          (("include_screenshots - ".data ++ inc.data) ++ '\n' ::
            ("screenshot_instructions - ".data ++ scr.data)))) := by
    simp only [mkCommentText, strData_append,
      show ("\nsub_type - ").data = '\n' :: "sub_type - ".data from rfl,
      show ("\nprompt - ").data = '\n' :: "prompt - ".data from rfl,
      show ("\ninclude_screenshots - ").data = '\n' :: "include_screenshots - ".data from rfl,
      show ("\nscreenshot_instructions - ").data = '\n' :: "screenshot_instructions - ".data
        from rfl,
      List.cons_append, List.append_assoc]
  have hcount : ∀ (lpre : String) (v : String), lpre.data.count '\n' = 0 → countNL v = 0 →
      (lpre.data ++ v.data).count '\n' = 0 := by
    intro lit v hl hv
    rw [List.count_append, hl, Nat.zero_add]
    exact hv
  unfold linesOf
  rw [hdata]
  rw [splitOnC_append_cons '\n' _ _ (hcount _ ty (by decide) h1),
    splitOnC_append_cons '\n' _ _ (hcount _ sub (by decide) h2),
    splitOnC_append_cons '\n' _ _ (hcount _ pr (by decide) h3),
    splitOnC_append_cons '\n' _ _ (hcount _ inc (by decide) h4),
    splitOnC_no_sep '\n' _ (hcount _ scr (by decide) h5)]
  simp only [List.map]
  rfl

/-- The download file name computed by the handler equals its specification:
prefix and extension around the first `'&'`-part of the title, trimmed, with
spaces turned into underscores. -/
theorem download_file_name_eq (t : String) : download_file_name t = spec_file_name t := by
  obtain ⟨tl, htl⟩ := splitOnC_head '&' t.data
  have hpred : t.data.takeWhile (fun c => !(c = '&')) =
      t.data.takeWhile (fun c => c ≠ '&') := by
    congr 1
    funext c
    simp [decide_not]
  unfold download_file_name spec_file_name
  rw [htl]
  simp only [List.headD_cons]
  rw [hpred]
  congr 1
  congr 1
  have h2 : pyReplace (pyStrip ⟨t.data.takeWhile (fun c => c ≠ '&')⟩) " " "_" =
      ⟨pyReplaceAux [' '] ['_']
        (pyStripL (t.data.takeWhile (fun c => c ≠ '&'))).length
        (pyStripL (t.data.takeWhile (fun c => c ≠ '&')))⟩ := by
    simp [pyReplace, pyStrip]
  rw [h2, pyReplaceAux_single_map ' ' '_' _ _ (Nat.le_refl _)]

/-- Headings of the built document carry the section titles in order. -/
theorem create_docx_titles (t : String) (secs : List ProcessedSection) :
    (create_docx t secs).map DocHeading.title = secs.map ProcessedSection.title := by
  induction secs with
  | nil => rfl
  | cons s rest ih =>
    simp only [create_docx, List.map_cons] at ih ⊢
    refine congrArg₂ List.cons ?_ ih
    by_cases hc : pyTruthyStrOpt s.comment_string = true
    · simp [hc]
    · simp only [Bool.not_eq_true] at hc
      simp [hc]

/-- Each heading of the built document carries an anchored comment, with
author `"System"` and the comment text of the section, exactly when the
`comment_string` of the section is truthy (present and nonempty). -/
theorem create_docx_comments (t : String) (secs : List ProcessedSection) :
    ∀ pr ∈ (create_docx t secs).zip secs,
      (pr.1).comment = (if pyTruthyStrOpt (pr.2).comment_string then
        some ⟨(pr.2).comment_string.getD "", "System", "S"⟩ else none) := by
  induction secs with
  | nil =>
    intro pr hpr
    simp [create_docx] at hpr
  | cons s rest ih =>
    intro pr hpr
    simp only [create_docx, List.map_cons, List.zip_cons_cons] at hpr
    rcases List.mem_cons.mp hpr with h | h
    · subst h
      by_cases hc : pyTruthyStrOpt s.comment_string = true
      · simp [hc]
      · simp only [Bool.not_eq_true] at hc
        simp [hc]
    · exact ih pr (by simpa [create_docx] using h)

/-- Unfolding `format_comment_string` on an input that decodes to an object
whose `prompt` entry is a string. -/
theorem format_comment_on_obj (s : String) (kvs : List (String × JValue)) (p : String)
    (hload : json_loads s = some (.obj kvs))
    (hp : pyDictGet kvs "prompt" (.str "") = .str p) :
    format_comment_string s = .ok (some (mkCommentText
      (pyStr (pyDictGet kvs "type" (.str "")))
      (pyStr (pyDictGet kvs "sub_type" (.str "")))
      (transform_prompt p)
      (pyStr (pyDictGet kvs "include_screenshots" (.str "no")))
      (pyStr (pyDictGet kvs "screenshot_instructions" (.str "none"))))) := by
  simp only [format_comment_string, hload, hp]

/-- The itemized line of a member occurs inside the concatenation of all lines. -/
theorem concat_fileLines_parts (f : InputFile) (files : List InputFile) (hf : f ∈ files) :
    ∃ pre post,
      (concatStrings (files.map fileLine)).data = pre ++ ((fileLine f).data ++ post) := by
  induction files with
  | nil => cases hf
  | cons g rest ih =>
    rcases List.mem_cons.mp hf with h | h
    · subst h
      exact ⟨[], (concatStrings (rest.map fileLine)).data,
        by simp [concatStrings, strData_append]⟩
    · obtain ⟨pre, post, hcat⟩ := ih h
      refine ⟨(fileLine g).data ++ pre, post, ?_⟩
      simp [concatStrings, strData_append, hcat, List.append_assoc]

/-! ### Claim theorems -/

/-- C10: for a fixed list of processed sections the built document does not
depend on the `template_title` argument at all. -/
theorem create_docx_ignores_template_title :
    ∀ (t₁ t₂ : String) (secs : List ProcessedSection),
      create_docx t₁ secs = create_docx t₂ secs :=
  fun _ _ _ => rfl

/-- C9: an input that is valid JSON but not an object (such as `[1, 2]` or
`5`) makes `format_comment_string` raise (only the JSON-decode failure is
caught), and in the generation batch such a reply aborts the whole batch. -/
theorem format_comment_nonobject_raises :
    format_comment_string "[1, 2]" = .error "AttributeError: get on non-dict" ∧
    format_comment_string "5" = .error "AttributeError: get on non-dict" ∧
    process_sections [("A", "\x7b\x7d"), ("B", "[1, 2]"), ("C", "\x7b\x7d")] =
      .error "AttributeError: get on non-dict" :=
  ⟨rfl, rfl, rfl⟩

/-- C4: an input that is not valid JSON makes `format_comment_string` return
the absent result (after reporting a parse error) rather than raising, and in
the generation batch that section is appended with an absent comment while the
remaining sections continue to be processed. -/
theorem format_comment_invalid_json :
    ∀ (s title : String) (rest : List (String × String)) (l : List ProcessedSection),
      json_loads s = none →
      process_sections rest = .ok l →
      format_comment_string s = .ok none ∧
      process_sections ((title, s) :: rest) = .ok (⟨title, none⟩ :: l) := by
  intro s title rest l hs hrest
  have hfmt : format_comment_string s = .ok none := by
    unfold format_comment_string
    rw [hs]
  exact ⟨hfmt, by simp [process_sections, hfmt, hrest]⟩

/-- Witness for C4 at the literal input `not json`, with one further section
that still gets processed. -/
theorem format_comment_invalid_json_witness :
    json_loads "not json" = none ∧
    process_sections [("T", "\x7b\x7d")] = .ok [⟨"T", some ("type - \nsub_type - " ++
      "\nprompt - \ninclude_screenshots - no\nscreenshot_instructions - none")⟩] ∧
    format_comment_string "not json" = .ok none ∧
    process_sections [("S", "not json"), ("T", "\x7b\x7d")] =
      .ok [⟨"S", none⟩, ⟨"T", some ("type - \nsub_type - " ++
        "\nprompt - \ninclude_screenshots - no\nscreenshot_instructions - none")⟩] := by
  have h := format_comment_invalid_json "not json" "S" [("T", "\x7b\x7d")]
    [⟨"T", some ("type - \nsub_type - " ++
      "\nprompt - \ninclude_screenshots - no\nscreenshot_instructions - none")⟩] rfl rfl
  exact ⟨rfl, rfl, h.1, h.2⟩

/-- C1 (amended): for every input that parses as a JSON object whose `prompt`
entry, if present, is a string, `format_comment_string` returns (without
raising) the five-field block with the documented defaults, and the block has
exactly the five lines `type - `, `sub_type - `, `prompt - `,
`include_screenshots - `, `screenshot_instructions - ` in that order,
provided no rendered field value contains an LF character. -/
theorem format_comment_five_lines :
    ∀ (s : String) (kvs : List (String × JValue)) (p : String),
      json_loads s = some (.obj kvs) →
      pyDictGet kvs "prompt" (.str "") = .str p →
      countNL (pyStr (pyDictGet kvs "type" (.str ""))) = 0 →
      countNL (pyStr (pyDictGet kvs "sub_type" (.str ""))) = 0 →
      countNL (pyStr (pyDictGet kvs "include_screenshots" (.str "no"))) = 0 →
      countNL (pyStr (pyDictGet kvs "screenshot_instructions" (.str "none"))) = 0 →
      format_comment_string s = .ok (some (mkCommentText
        (pyStr (pyDictGet kvs "type" (.str "")))
        (pyStr (pyDictGet kvs "sub_type" (.str "")))
        (transform_prompt p)
        (pyStr (pyDictGet kvs "include_screenshots" (.str "no")))
        (pyStr (pyDictGet kvs "screenshot_instructions" (.str "none"))))) ∧
      linesOf (mkCommentText
        (pyStr (pyDictGet kvs "type" (.str "")))
        (pyStr (pyDictGet kvs "sub_type" (.str "")))
        (transform_prompt p)
        (pyStr (pyDictGet kvs "include_screenshots" (.str "no")))
        (pyStr (pyDictGet kvs "screenshot_instructions" (.str "none")))) =
        ["type - " ++ pyStr (pyDictGet kvs "type" (.str "")),
         "sub_type - " ++ pyStr (pyDictGet kvs "sub_type" (.str "")),
         "prompt - " ++ transform_prompt p,
         "include_screenshots - " ++ pyStr (pyDictGet kvs "include_screenshots" (.str "no")),
         "screenshot_instructions - " ++
           pyStr (pyDictGet kvs "screenshot_instructions" (.str "none"))] := by
  intro s kvs p hload hp h1 h2 h4 h5
  exact ⟨format_comment_on_obj s kvs p hload hp,
    linesOf_mkCommentText _ _ _ _ _ h1 h2 (countNL_transform_prompt p) h4 h5⟩

/-- Witness for C1 at a concrete object with `type` and `prompt` set. -/
theorem format_comment_five_lines_witness :
    json_loads "\x7b\"type\": \"text\", \"prompt\": \"hi\"\x7d" =
      some (.obj [("type", .str "text"), ("prompt", .str "hi")]) ∧
    pyDictGet [("type", JValue.str "text"), ("prompt", JValue.str "hi")] "prompt" (.str "") =
      .str "hi" ∧
    format_comment_string "\x7b\"type\": \"text\", \"prompt\": \"hi\"\x7d" =
      .ok (some ("type - text\nsub_type - \nprompt - hi\ninclude_screenshots - no" ++
        "\nscreenshot_instructions - none")) ∧
    linesOf ("type - text\nsub_type - \nprompt - hi\ninclude_screenshots - no" ++
        "\nscreenshot_instructions - none") =
      ["type - text", "sub_type - ", "prompt - hi", "include_screenshots - no",
       "screenshot_instructions - none"] := by
  have h := format_comment_five_lines "\x7b\"type\": \"text\", \"prompt\": \"hi\"\x7d"
    [("type", .str "text"), ("prompt", .str "hi")] "hi" rfl rfl rfl rfl rfl rfl
  exact ⟨rfl, rfl, h.1, h.2⟩

/-- Counterexample for C1 as stated: a JSON object whose `type` value embeds
an LF yields a six-line block, and a JSON object whose `prompt` value is the
number `0` raises instead of returning a block. -/
theorem format_comment_five_lines_cex :
    format_comment_string "\x7b\"type\": \"a\\nb\"\x7d" =
      .ok (some ("type - a\nb\nsub_type - \nprompt - \ninclude_screenshots - no" ++
        "\nscreenshot_instructions - none")) ∧
    (linesOf ("type - a\nb\nsub_type - \nprompt - \ninclude_screenshots - no" ++
        "\nscreenshot_instructions - none")).length = 6 ∧
    format_comment_string "\x7b\"prompt\": 0\x7d" =
      .error "AttributeError: replace on non-string prompt" :=
  ⟨rfl, rfl, rfl⟩

/-- C2 (amended): the built document has exactly one heading per processed
section, titles in input order, and a heading carries an anchored comment
(text the comment string of the section, author `System`) exactly when the
`comment_string` of the section is present and nonempty; in particular three
sections whose middle comment is absent give three headings and two comments
in order. -/
theorem create_docx_structure :
    (∀ (t : String) (secs : List ProcessedSection),
      (create_docx t secs).map DocHeading.title = secs.map ProcessedSection.title) ∧
    (∀ (t : String) (secs : List ProcessedSection),
      ∀ pr ∈ (create_docx t secs).zip secs,
        (pr.1).comment = (if pyTruthyStrOpt (pr.2).comment_string then
          some ⟨(pr.2).comment_string.getD "", "System", "S"⟩ else none)) ∧
    (create_docx "T" [⟨"A", some "ca"⟩, ⟨"B", none⟩, ⟨"C", some "cc"⟩]).map DocHeading.title =
      ["A", "B", "C"] ∧
    (create_docx "T" [⟨"A", some "ca"⟩, ⟨"B", none⟩, ⟨"C", some "cc"⟩]).map DocHeading.comment =
      [some ⟨"ca", "System", "S"⟩, none, some ⟨"cc", "System", "S"⟩] :=
  ⟨create_docx_titles, create_docx_comments, rfl, rfl⟩

/-- Witness for the per-heading clause of C2 at a concrete one-section list. -/
theorem create_docx_structure_witness :
    ((⟨⟨"A", 1, some ⟨"ca", "System", "S"⟩⟩, ⟨"A", some "ca"⟩⟩ :
        DocHeading × ProcessedSection) ∈
      (create_docx "T" [⟨"A", some "ca"⟩]).zip [⟨"A", some "ca"⟩]) ∧
    (⟨"A", 1, some ⟨"ca", "System", "S"⟩⟩ : DocHeading).comment =
      (if pyTruthyStrOpt (some "ca") then
        some ⟨(some "ca" : Option String).getD "", "System", "S"⟩ else none) := by
  have hm : (⟨⟨"A", 1, some ⟨"ca", "System", "S"⟩⟩, ⟨"A", some "ca"⟩⟩ :
      DocHeading × ProcessedSection) ∈
      (create_docx "T" [⟨"A", some "ca"⟩]).zip [⟨"A", some "ca"⟩] :=
    List.mem_singleton.mpr rfl
  exact ⟨hm, create_docx_structure.2.1 "T" [⟨"A", some "ca"⟩] _ hm⟩

/-- Counterexample for C2 as stated: a present-but-empty `comment_string` is
non-absent, yet its heading carries no anchored comment. -/
theorem create_docx_structure_cex :
    (some "" : Option String).isSome = true ∧
    (create_docx "T" [⟨"S", some ""⟩]).map DocHeading.comment = [none] :=
  ⟨rfl, rfl⟩

/-- C3: for every JSON object input whose `prompt` is a string, the emitted
prompt is the source text with CRLF first normalised to LF and every
remaining LF then replaced by backslash-`n` (after the bold normalisation),
so it contains no LF; in particular the prompt `A<LF><LF>B` is emitted as the
literal characters `A\n\nB`. -/
theorem format_comment_newline_escape :
    ∀ (s : String) (kvs : List (String × JValue)) (p : String),
      json_loads s = some (.obj kvs) →
      pyDictGet kvs "prompt" (.str "") = .str p →
      (format_comment_string s = .ok (some (mkCommentText
        (pyStr (pyDictGet kvs "type" (.str "")))
        (pyStr (pyDictGet kvs "sub_type" (.str "")))
        (transform_prompt p)
        (pyStr (pyDictGet kvs "include_screenshots" (.str "no")))
        (pyStr (pyDictGet kvs "screenshot_instructions" (.str "none"))))) ∧
       transform_prompt p =
         pyReplace (pyReplace (pyReplace p "**" "*") "\r\n" "\n") "\n" "\\n" ∧
       countNL (transform_prompt p) = 0) ∧
      transform_prompt "A\n\nB" = "A\\n\\nB" ∧
      format_comment_string "\x7b\"prompt\": \"A\\n\\nB\"\x7d" =
        .ok (some ("type - \nsub_type - \nprompt - A\\n\\nB\ninclude_screenshots - no" ++
          "\nscreenshot_instructions - none")) := by
  intro s kvs p hload hp
  exact ⟨⟨format_comment_on_obj s kvs p hload hp, rfl, countNL_transform_prompt p⟩, rfl, rfl⟩

/-- Witness for C3 at the round-trip input whose prompt holds two LFs. -/
theorem format_comment_newline_escape_witness :
    json_loads "\x7b\"prompt\": \"A\\n\\nB\"\x7d" =
      some (.obj [("prompt", .str "A\n\nB")]) ∧
    pyDictGet [("prompt", JValue.str "A\n\nB")] "prompt" (.str "") = .str "A\n\nB" ∧
    countNL (transform_prompt "A\n\nB") = 0 ∧
    format_comment_string "\x7b\"prompt\": \"A\\n\\nB\"\x7d" =
      .ok (some ("type - \nsub_type - \nprompt - A\\n\\nB\ninclude_screenshots - no" ++
        "\nscreenshot_instructions - none")) := by
  have h := format_comment_newline_escape "\x7b\"prompt\": \"A\\n\\nB\"\x7d"
    [("prompt", .str "A\n\nB")] "A\n\nB" rfl rfl
  exact ⟨rfl, rfl, h.1.2.2, h.2.2⟩

/-- C5 (amended): the bold markers are rewritten by one left-to-right
non-overlapping pass replacing `**` with `*`; when the prompt has no run of
three consecutive stars, no doubled star remains in the transformed prompt;
in particular `**Role:**` becomes `*Role:*`. -/
theorem format_comment_star_normalization :
    (∀ (p : String), tripled '*' p.data = false →
      doubled '*' (transform_prompt p).data = false) ∧
    transform_prompt "**Role:**" = "*Role:*" ∧
    format_comment_string "\x7b\"prompt\": \"**Role:**\"\x7d" =
      .ok (some ("type - \nsub_type - \nprompt - *Role:*\ninclude_screenshots - no" ++
        "\nscreenshot_instructions - none")) :=
  ⟨transform_prompt_no_doubled, rfl, rfl⟩

/-- Witness for the universal clause of C5 at a concrete prompt. -/
theorem format_comment_star_normalization_witness :
    tripled '*' "ab**cd**".data = false ∧
    doubled '*' (transform_prompt "ab**cd**").data = false :=
  ⟨rfl, format_comment_star_normalization.1 "ab**cd**" rfl⟩

/-- Counterexample for C5 as stated: the prompt `***` leaves the residual
doubled star `**` in the emitted prompt line. -/
theorem format_comment_star_normalization_cex :
    format_comment_string "\x7b\"prompt\": \"***\"\x7d" =
      .ok (some ("type - \nsub_type - \nprompt - **\ninclude_screenshots - no" ++
        "\nscreenshot_instructions - none")) ∧
    isSubOf "**".data (transform_prompt "***").data = true :=
  ⟨rfl, rfl⟩

/-- C7: the download file name is the fixed prefix and extension around the
text of the first section title before its first `&`, trimmed, with spaces
replaced by underscores; in particular `Executive Summary & Key Themes`
yields `Klarity_Template_Executive_Summary.docx`. -/
theorem download_file_name_correct :
    (∀ (t : String), download_file_name t = spec_file_name t) ∧
    download_file_name "Executive Summary & Key Themes" =
      "Klarity_Template_Executive_Summary.docx" :=
  ⟨download_file_name_eq, rfl⟩

/-- C8: any failed validation (blank master context, no input files, a blank
input-file name or description, no sections, a blank section title or goal)
makes the Generate button handler stop with an inline warning, so no external
call is made and no section is processed. -/
theorem generate_handler_validation :
    ∀ (mc : String) (files : List InputFile) (sections : List SectionSpec)
      (respond : String → String),
      (blank mc = true ∨ files = [] ∨
       (∃ f, f ∈ files ∧ blank f.name = true) ∨
       (∃ f, f ∈ files ∧ blank f.description = true) ∨
       sections = [] ∨
       (∃ sec, sec ∈ sections ∧ blank sec.title = true) ∨
       (∃ sec, sec ∈ sections ∧ blank sec.goal = true)) →
      isWarned (generate_handler mc files sections respond) = true := by
  intro mc files sections respond hbad
  unfold generate_handler
  split_ifs with h1 h2 h3 h4 h5 h6 h7
  · rfl
  · rfl
  · rfl
  · rfl
  · rfl
  · rfl
  · rfl
  · exfalso
    rcases hbad with h | h | h | h | h | h | h
    · exact h1 h
    · exact h2 (by simp [h])
    · exact h3 (List.any_eq_true.mpr (by simpa using h))
    · exact h4 (List.any_eq_true.mpr (by simpa using h))
    · exact h5 (by simp [h])
    · exact h6 (List.any_eq_true.mpr (by simpa using h))
    · exact h7 (List.any_eq_true.mpr (by simpa using h))

/-- Witness for C8 at a whitespace-only master context. -/
theorem generate_handler_validation_witness :
    (blank "   " = true ∨ ([⟨"Discovery Call Transcript", "DOCX", "notes"⟩] :
        List InputFile) = [] ∨
     (∃ f, f ∈ ([⟨"Discovery Call Transcript", "DOCX", "notes"⟩] : List InputFile) ∧
        blank f.name = true) ∨
     (∃ f, f ∈ ([⟨"Discovery Call Transcript", "DOCX", "notes"⟩] : List InputFile) ∧
        blank f.description = true) ∨
     ([⟨"T", "Text (Freeform)", "G"⟩] : List SectionSpec) = [] ∨
     (∃ sec, sec ∈ ([⟨"T", "Text (Freeform)", "G"⟩] : List SectionSpec) ∧
        blank sec.title = true) ∨
     (∃ sec, sec ∈ ([⟨"T", "Text (Freeform)", "G"⟩] : List SectionSpec) ∧
        blank sec.goal = true)) ∧
    isWarned (generate_handler "   " [⟨"Discovery Call Transcript", "DOCX", "notes"⟩]
      [⟨"T", "Text (Freeform)", "G"⟩] (fun _ => "")) = true := by
  have hd : blank "   " = true := rfl
  exact ⟨Or.inl hd, generate_handler_validation "   "
    [⟨"Discovery Call Transcript", "DOCX", "notes"⟩]
    [⟨"T", "Text (Freeform)", "G"⟩] (fun _ => "") (Or.inl hd)⟩

/-- C6 (amended): for every descriptor in the input-file list, the meta
prompt contains verbatim the itemized line `- **name** (type): description`
— the name is wrapped in double-asterisk bold markers. -/
theorem create_meta_prompt_itemized :
    ∀ (mc : String) (files : List InputFile) (ti go fmt : String) (f : InputFile),
      f ∈ files →
      isSubOf (fileLine f).data (create_meta_prompt mc files ti go fmt).data = true := by
  intro mc files ti go fmt f hf
  obtain ⟨pre, post, hcat⟩ := concat_fileLines_parts f files hf
  have hne : files.isEmpty = false := by
    cases files with
    | nil => cases hf
    | cons g rest => rfl
  apply isSubOf_of_parts _ (metaS0.data ++ mc.data ++ metaS1.data ++
      "**Available Input Files:**\n".data ++ pre)
    (post ++ metaS2.data ++ ti.data ++ metaS3.data ++ go.data ++ metaS4.data ++ fmt.data ++
      metaS5.data ++ fmt.data ++ metaS6.data)
  simp only [create_meta_prompt, input_files_context, hne, Bool.false_eq_true, if_false,
    strData_append, hcat, List.append_assoc]

/-- Witness for C6 at the default input-file descriptor of the app. -/
theorem create_meta_prompt_itemized_witness :
    ((⟨"Discovery Call Transcript", "DOCX", "notes"⟩ : InputFile) ∈
      ([⟨"Discovery Call Transcript", "DOCX", "notes"⟩] : List InputFile)) ∧
    isSubOf (fileLine ⟨"Discovery Call Transcript", "DOCX", "notes"⟩).data
      (create_meta_prompt "ctx" [⟨"Discovery Call Transcript", "DOCX", "notes"⟩]
        "T" "G" "Text (Freeform)").data = true := by
  have hm : (⟨"Discovery Call Transcript", "DOCX", "notes"⟩ : InputFile) ∈
      ([⟨"Discovery Call Transcript", "DOCX", "notes"⟩] : List InputFile) :=
    List.mem_singleton.mpr rfl
  exact ⟨hm, create_meta_prompt_itemized "ctx" _ "T" "G" "Text (Freeform)" _ hm⟩

set_option maxRecDepth 200000 in
/-- Counterexample for C6 as stated: with name `A`, type `PDF`, description
`d`, the meta prompt does not contain the unwrapped line `- A (PDF): d`
anywhere, while it does contain the bold-wrapped `- **A** (PDF): d`. -/
theorem create_meta_prompt_itemized_cex :
    isSubOf "- A (PDF): d".data
      (create_meta_prompt "m" [⟨"A", "PDF", "d"⟩] "T" "G" "Text (Freeform)").data = false ∧
    isSubOf "- **A** (PDF): d\n".data
      (create_meta_prompt "m" [⟨"A", "PDF", "d"⟩] "T" "G" "Text (Freeform)").data = true := by
  constructor
  · show isSubOf "- A (PDF): d".data
      ((metaS0 ++ "m" ++ metaS1 ++ input_files_context [⟨"A", "PDF", "d"⟩] ++ metaS2 ++ "T" ++
        metaS3 ++ "G" ++ metaS4 ++ "Text (Freeform)" ++ metaS5 ++ "Text (Freeform)" ++
        metaS6 : String)).data = false
    rw [show input_files_context [⟨"A", "PDF", "d"⟩] =
      "**Available Input Files:**\n- **A** (PDF): d\n" from rfl]
    simp only [metaS5, metaS6, strData_append, List.append_assoc]
    refine noSub_step _ _ _ (by rfl) ?_
    refine noSub_step _ _ _ (by rfl) ?_
    refine noSub_step _ _ _ (by rfl) ?_
    refine noSub_step _ _ _ (by rfl) ?_
    refine noSub_step _ _ _ (by rfl) ?_
    refine noSub_step _ _ _ (by rfl) ?_
    refine noSub_step _ _ _ (by rfl) ?_
    refine noSub_step _ _ _ (by rfl) ?_
    refine noSub_step _ _ _ (by rfl) ?_
    refine noSub_step _ _ _ (by rfl) ?_
    refine noSub_step _ _ _ (by rfl) ?_
    refine noSub_step _ _ _ (by rfl) ?_
    refine noSub_step _ _ _ (by rfl) ?_
    refine noSub_step _ _ _ (by rfl) ?_
    refine noSub_step _ _ _ (by rfl) ?_
    refine noSub_step _ _ _ (by rfl) ?_
    refine noSub_step _ _ _ (by rfl) ?_
    refine noSub_step _ _ _ (by rfl) ?_
    refine noSub_step _ _ _ (by rfl) ?_
    refine noSub_step _ _ _ (by rfl) ?_
    refine noSub_step _ _ _ (by rfl) ?_
    rfl
  · show isSubOf "- **A** (PDF): d\n".data
      ((metaS0 ++ "m" ++ metaS1 ++ input_files_context [⟨"A", "PDF", "d"⟩] ++ metaS2 ++ "T" ++
        metaS3 ++ "G" ++ metaS4 ++ "Text (Freeform)" ++ metaS5 ++ "Text (Freeform)" ++
        metaS6 : String)).data = true
    rw [show input_files_context [⟨"A", "PDF", "d"⟩] =
      "**Available Input Files:**\n- **A** (PDF): d\n" from rfl]
    apply isSubOf_of_parts _
      (metaS0.data ++ ("m".data ++ (metaS1.data ++ "**Available Input Files:**\n".data)))
      ((metaS2.data ++ ("T".data ++ (metaS3.data ++ ("G".data ++ (metaS4.data ++
        ("Text (Freeform)".data ++ (metaS5.data ++ ("Text (Freeform)".data ++ metaS6.data)))))))))
    simp only [strData_append, List.append_assoc]
    rfl
